import Mathlib

/-!
Verification development for the crossover-cache repository: a Traefik
HTTP-response cache middleware (plugin.go, recorder.go) over a minimal
Redis RESP client (vendored github.com/kotalco/resp: client.go with the
connection pool, connection.go with Send/Receive and the reply codec).

The Go source is shallowly embedded below:
* the buffered reader (bufio.ReadWriter wrapping the TCP stream) is a
  `BufState`: bytes already buffered plus the list of byte chunks the
  underlying stream will deliver, one chunk per underlying read;
* `Connection.Receive` reply parsing is `receiveReply` (with the bulk
  branch factored as `bulkBranch`), including the Go panic behaviour of
  `make` with a negative size and of out-of-range slicing;
* `Connection.Send` / `Connection.Receive` context handling is
  `Connection.Send` / `Connection.Receive` over a `Sock` plus a `GoContext`;
* the pool (`Client.GetConnection` / `Client.ReleaseConnection`) is a
  transition system on `Pool`, and `NewRedisClient` models construction;
* `Cache.ServeHTTP` and `responseRecorder` are modelled as trace
  producers: HTTP writer calls become `WEvent`s, Redis side effects
  become `Effect`s; gob encode/decode are abstract parameters.
-/

/-! ## Byte-string helpers (Go string / strconv / strings operations) -/

/-- Go `strings.TrimSuffix(s, "\r\n")`: remove one trailing CRLF if present. -/
def trimSuffixCRLF (s : String) : String :=
  match s.data.reverse with
  | '\n' :: '\r' :: rest => String.mk rest.reverse
  | _ => s

/-- Split a byte list after the first newline: returns (head including the
newline, tail), or none when no newline occurs. -/
def splitAfterNL : List Char → Option (List Char × List Char)
  | [] => none
  | c :: cs =>
    if c = '\n' then some ([c], cs)
    else
      match splitAfterNL cs with
      | none => none
      | some (pre, post) => some (c :: pre, post)

/-- String-level wrapper of `splitAfterNL`. -/
def splitAtNL (s : String) : Option (String × String) :=
  match splitAfterNL s.data with
  | none => none
  | some (pre, post) => some (String.mk pre, String.mk post)

/-- Digit run value: all-digits, nonempty, otherwise none. -/
def digitsValAux (acc : Nat) : List Char → Option Nat
  | [] => some acc
  | c :: cs =>
    if '0' ≤ c ∧ c ≤ '9' then digitsValAux (acc * 10 + (c.toNat - '0'.toNat)) cs
    else none

/-- Value of a nonempty all-digit character list; none on empty or non-digit. -/
def digitsVal (l : List Char) : Option Nat :=
  match l with
  | [] => none
  | _ :: _ => digitsValAux 0 l

/-- Go `strconv.Atoi` as used at connection.go line 140: the error return is
discarded by the caller (`length, _ := strconv.Atoi(...)`), and on a syntax
error Atoi yields the value 0, so the model returns 0 for invalid input. -/
def atoiGo (s : String) : Int :=
  match s.data with
  | '-' :: rest =>
    (match digitsVal rest with
     | some n => -(n : Int)
     | none => 0)
  | '+' :: rest =>
    (match digitsVal rest with
     | some n => (n : Int)
     | none => 0)
  | l =>
    (match digitsVal l with
     | some n => (n : Int)
     | none => 0)

/-- Go `make([]byte, n)`: a zero-filled buffer, or a runtime panic (none)
when the requested size is negative. -/
def goMake (n : Int) : Option String :=
  if n < 0 then none else some (String.mk (List.replicate n.toNat (Char.ofNat 0)))

/-- Go slicing `buf[:n]`: panics (none) unless 0 ≤ n ≤ len(buf). -/
def goSliceTake (s : String) (n : Int) : Option String :=
  if 0 ≤ n ∧ n ≤ (s.length : Int) then some (s.take n.toNat) else none

/-! ## Buffered stream (bufio.Reader over the TCP connection) -/

/-- The buffered read side of the connection: `buf` holds bytes already read
from the stream but not yet consumed, `chunks` are the byte groups the
underlying stream will deliver, one group per underlying `Read` call
(an empty `chunks` list means the stream is at EOF). -/
structure BufState where
  buf    : String
  chunks : List String
  deriving DecidableEq

/-- Go `bufio.Reader.ReadString('\n')` as used at connection.go line 129:
accumulate underlying reads until a newline is buffered; returns the line
including the newline and the positioned rest, or none when the stream ends
first (the Go code returns that read error to its caller). -/
def readLineNL : String → List String → Option (String × BufState)
  | buf, chunks =>
    match splitAtNL buf with
    | some (line, rest) => some (line, ⟨rest, chunks⟩)
    | none =>
      match chunks with
      | [] => none
      | c :: cs => readLineNL (buf ++ c) cs

/-- Go `bufio.Reader.Read(p)` with `len(p) = n`: a single read that returns
whatever is buffered (up to n bytes), else performs exactly one underlying
read and returns up to n bytes of it; it never loops to fill p. -/
def bufRead (n : Nat) (st : BufState) : Option (String × BufState) :=
  if n = 0 then some ("", st)
  else if st.buf.length ≠ 0 then some (st.buf.take n, ⟨st.buf.drop n, st.chunks⟩)
  else
    match st.chunks with
    | [] => none
    | c :: cs => some (c.take n, ⟨c.drop n, cs⟩)

/-! ## Connection.Receive reply parsing (connection.go lines 129 to 154) -/

/-- Outcome of one `Receive` reply parse: a reply string and the positioned
rest of the stream, a server error (`-` line, surfaced via fmt.Errorf), an
I/O error from the underlying reads, or a Go runtime panic. -/
inductive RecvOut where
  | ok (reply : String) (rest : BufState)
  | errMsg (msg : String) (rest : BufState)
  | ioErr
  | panicked (msg : String)
  deriving DecidableEq

/-- The `$` branch of `Connection.Receive` (connection.go lines 139 to 146):
`length, _ := strconv.Atoi(...)` has already produced `length`; `-1` is a
nil reply; otherwise `buf := make([]byte, length+2)`, one `rw.Read(buf)`
whose byte count is discarded, and `return string(buf[:length])`. -/
def bulkBranch (length : Int) (st : BufState) : RecvOut :=
  if length = -1 then .ok "" st
  else
    match goMake (length + 2) with
    | none => .panicked "makeslice: len out of range"
    | some zeros =>
      match bufRead zeros.length st with
      | none => .ioErr
      | some (readBytes, st2) =>
        let buf := readBytes ++ zeros.drop readBytes.length
        match goSliceTake buf length with
        | none => .panicked "slice bounds out of range"
        | some payload => .ok payload st2

/-- `Connection.Receive` after the context/deadline preamble: read one line,
switch on its first byte: `-` server error, `$` bulk via `bulkBranch`,
`+` simple string, default: the line itself with CRLF trimmed. -/
def receiveReply (st : BufState) : RecvOut :=
  match readLineNL st.buf st.chunks with
  | none => .ioErr
  | some (line, st1) =>
    match line.data with
    | [] => .panicked "index out of range"
    | c0 :: _ =>
      if c0 = '-' then .errMsg (trimSuffixCRLF (line.drop 1)) st1
      else if c0 = '$' then bulkBranch (atoiGo (trimSuffixCRLF (line.drop 1))) st1
      else if c0 = '+' then .ok (trimSuffixCRLF (line.drop 1)) st1
      else .ok (trimSuffixCRLF line) st1

example : receiveReply ⟨"", ["+OK\r\n"]⟩ = .ok "OK" ⟨"", []⟩ := by decide
example : receiveReply ⟨"", [":5\r\n"]⟩ = .ok ":5" ⟨"", []⟩ := by decide
example : receiveReply ⟨"", ["$3\r\nabc\r\n"]⟩ = .ok "abc" ⟨"", []⟩ := by decide
example : receiveReply ⟨"", ["$-1\r\n"]⟩ = .ok "" ⟨"", []⟩ := by decide
example : receiveReply ⟨"", ["-ERR bad\r\n"]⟩ = .errMsg "ERR bad" ⟨"", []⟩ := by decide
example : receiveReply ⟨"", ["$0\r\n\r\n"]⟩ = .ok "" ⟨"", []⟩ := by decide
example : receiveReply ⟨"", ["$5\r\nab", "cde\r\n"]⟩
    = .ok ("ab" ++ String.mk (List.replicate 3 (Char.ofNat 0))) ⟨"", ["cde\r\n"]⟩ := by decide
example : receiveReply ⟨"", ["$5\r\nabcde\r\n"]⟩ = .ok "abcde" ⟨"", []⟩ := by decide
example : receiveReply ⟨"", ["$-3\r\n"]⟩ = .panicked "makeslice: len out of range" := by decide
example : receiveReply ⟨"", ["$-2\r\n"]⟩ = .panicked "slice bounds out of range" := by decide
example : receiveReply ⟨"", ["$abc\r\nXY"]⟩ = .ok "" ⟨"", []⟩ := by decide
example : receiveReply ⟨"", [":abc\r\n"]⟩ = .ok ":abc" ⟨"", []⟩ := by decide

/-! ## Context and socket (Connection.Send / Connection.Receive preambles) -/

/-- A Go context as observed by `ctx.Err()` and `ctx.Deadline()`:
an explicit cancellation flag and an optional deadline instant. -/
structure GoContext where
  cancelled : Bool
  deadline  : Option Int
  deriving DecidableEq

/-- `ctx.Err()` at time `now`: canceled contexts report context.Canceled,
a context whose deadline has elapsed reports context.DeadlineExceeded,
otherwise nil. -/
def ctxErr (ctx : GoContext) (now : Int) : Option String :=
  if ctx.cancelled then some "context canceled"
  else
    match ctx.deadline with
    | some d => if d ≤ now then some "context deadline exceeded" else none
    | none => none

/-- The connection socket: bytes written so far, the buffered read side,
and the deadlines last installed by SetWriteDeadline / SetReadDeadline. -/
structure Sock where
  written       : String
  input         : BufState
  readDeadline  : Option Int
  writeDeadline : Option Int
  deriving DecidableEq

/-- `Connection.Send` (connection.go lines 94 to 112): fail fast on
`ctx.Err()`; otherwise take the context deadline (default now+5s), install
it as write deadline, write `command + "\r\n"` and flush. -/
def Connection.Send (ctx : GoContext) (now : Int) (s : Sock) (command : String) :
    Option String × Sock :=
  match ctxErr ctx now with
  | some e => (some e, s)
  | none =>
    let dl := ctx.deadline.getD (now + 5)
    (none, { s with writeDeadline := some dl, written := s.written ++ command ++ "\r\n" })

/-- Result of a full `Connection.Receive` call. -/
inductive NetResult where
  | ok (reply : String)
  | err (msg : String)
  | panicked (msg : String)
  deriving DecidableEq

/-- `Connection.Receive` (connection.go lines 114 to 154): fail fast on
`ctx.Err()`; otherwise install the read deadline (context deadline or
now+5s) and parse exactly one reply via `receiveReply`. -/
def Connection.Receive (ctx : GoContext) (now : Int) (s : Sock) : NetResult × Sock :=
  match ctxErr ctx now with
  | some e => (.err e, s)
  | none =>
    let s1 : Sock := { s with readDeadline := some (ctx.deadline.getD (now + 5)) }
    match receiveReply s.input with
    | .ok r rest => (.ok r, { s1 with input := rest })
    | .errMsg m rest => (.err m, { s1 with input := rest })
    | .ioErr => (.err "read error", s1)
    | .panicked m => (.panicked m, s1)

/-! ## AUTH wire bytes (connection.go NewRedisConnection and Auth) -/

/-- `Connection.Auth` builds its command as `fmt.Sprintf("AUTH %s", password)`
(connection.go line 56). -/
def authCommand (password : String) : String := "AUTH " ++ password

/-- The bytes `Connection.Send` puts on the wire for a command: the command
text followed by one CRLF (connection.go line 105). -/
def sendWireBytes (command : String) : String := command ++ "\r\n"

/-- The bytes written on the socket during `NewRedisConnection` (connection.go
lines 26 to 49): nothing when auth is empty, else one AUTH command sent
through `Connection.Send`. -/
def newRedisConnectionWrites (auth : String) : String :=
  if auth = "" then "" else sendWireBytes (authCommand auth)

/-- Spec §4.1 bulk-string encoding, written from the words of the spec:
`$<len>\r\n<bytes>\r\n`. Used only to compare the code against the spec
claim that AUTH is framed as a protocol array. -/
def respBulkSpec (arg : String) : String :=
  "$" ++ toString arg.length ++ "\r\n" ++ arg ++ "\r\n"

/-- Spec §4.1 array encoding, written from the words of the spec:
`*<argc>\r\n` followed by each argument as a bulk string. -/
def respArraySpec (args : List String) : String :=
  "*" ++ toString args.length ++ "\r\n" ++ String.join (args.map respBulkSpec)

/-- The wire form §6 of the spec claims for `AUTH password`. -/
def authArraySpec (password : String) : String := respArraySpec ["AUTH", password]

example : newRedisConnectionWrites "secret" = "AUTH secret\r\n" := by decide
example : authArraySpec "secret" = "*2\r\n$4\r\nAUTH\r\n$6\r\nsecret\r\n" := by decide

/-! ## Connection pool (client.go GetConnection / ReleaseConnection) -/

/-- The pool: the buffered channel of idle connections (FIFO, identified by
numbers) and its capacity `poolSize`. -/
structure Pool where
  idle : List Nat
  cap  : Nat
  deriving DecidableEq

/-- `Client.GetConnection` (client.go lines 67 to 83), under the client
mutex: take the oldest idle connection if any; on an empty pool dial a
fresh connection (`dialed`: some id on success, none on dial failure)
without touching the idle set. -/
def Client.GetConnection (p : Pool) (dialed : Option Nat) : Option Nat × Pool :=
  match p.idle with
  | c :: rest => (some c, { p with idle := rest })
  | [] => (dialed, p)

/-- `Client.ReleaseConnection` (client.go lines 85 to 96), under the client
mutex: when the idle set already holds at least `poolSize` connections the
released connection is closed and discarded (the Bool reports the close),
otherwise it is appended to the idle set. -/
def Client.ReleaseConnection (p : Pool) (c : Nat) : Pool × Bool :=
  if p.cap ≤ p.idle.length then (p, true)
  else ({ p with idle := p.idle ++ [c] }, false)

/-- One pool operation of an interleaving: an acquire (with the outcome the
dialer would produce if the pool is empty) or a release of a connection. -/
inductive PoolOp where
  | acquire (dialed : Option Nat)
  | release (c : Nat)
  deriving DecidableEq

/-- State reached after one pool operation. -/
def poolStep (p : Pool) (op : PoolOp) : Pool :=
  match op with
  | .acquire d => (Client.GetConnection p d).2
  | .release c => (Client.ReleaseConnection p c).1

/-- State reached after a sequence of acquire/release operations. -/
def poolRun (p : Pool) (ops : List PoolOp) : Pool := ops.foldl poolStep p

/-- `NewRedisClient` (client.go lines 43 to 65): dial exactly `poolSize`
connections (attempt i gives `dial i`), keep the successes in order, fail
with the constructor error only when the resulting pool is empty. -/
def NewRedisClient (poolSize : Nat) (dial : Nat → Option Nat) : Except String Pool :=
  if ((List.range poolSize).filterMap dial).isEmpty then
    .error "cannot create redis connection"
  else .ok { idle := (List.range poolSize).filterMap dial, cap := poolSize }

/-! ## HTTP cache layer (plugin.go Cache.ServeHTTP, recorder.go responseRecorder) -/

/-- One call a downstream handler makes on the http.ResponseWriter it is
given: add a header pair, set the status, or write body bytes. -/
inductive HAction where
  | addHeader (k v : String)
  | writeHeader (s : Int)
  | write (b : String)
  deriving DecidableEq

/-- One observable event on the original (client-facing) ResponseWriter. -/
inductive WEvent where
  | addHeader (k v : String)
  | writeHeader (s : Int)
  | write (b : String)
  deriving DecidableEq

/-- The cached value shape (plugin.go CachedResponse): status code, header
pairs, body bytes. -/
structure CachedResponse where
  statusCode : Int
  headers    : List (String × String)
  body       : String
  deriving DecidableEq

/-- `responseRecorder` state (recorder.go): the recorded status (Go zero
value 0 until WriteHeader is called), the buffered body, and the header
pairs visible through Header() — recorder.Header() returns rw.Header(), so
these live in the underlying writer map. -/
structure RecorderState where
  status : Int
  body   : String
  hdrs   : List (String × String)
  deriving DecidableEq

/-- Initial recorder state (`&responseRecorder{rw: rw}`). -/
def recorderInit : RecorderState := { status := 0, body := "", hdrs := [] }

/-- One downstream call through the recorder (recorder.go lines 14 to 25):
Header().Add goes to the underlying writer map; Write buffers the bytes
and passes them through to the underlying writer; WriteHeader records the
status and passes it through. Every call is also an event on the
underlying writer. -/
def recorderStep (acc : RecorderState × List WEvent) (a : HAction) :
    RecorderState × List WEvent :=
  match a with
  | .addHeader k v => ({ acc.1 with hdrs := acc.1.hdrs ++ [(k, v)] }, acc.2 ++ [.addHeader k v])
  | .writeHeader s => ({ acc.1 with status := s }, acc.2 ++ [.writeHeader s])
  | .write b => ({ acc.1 with body := acc.1.body ++ b }, acc.2 ++ [.write b])

/-- Running `next.ServeHTTP(recorder, req)` where the downstream handler
performs the given calls: the final recorder state and the events that
reached the underlying ResponseWriter while it ran. -/
def runRecorder (next : List HAction) : RecorderState × List WEvent :=
  next.foldl recorderStep (recorderInit, [])

/-- A Redis side effect issued by the cache layer. -/
inductive Effect where
  | deleteKey (k : String)
  | setWithTTL (k v : String) (ttl : Int)
  deriving DecidableEq

/-- The cache-miss tail of `Cache.ServeHTTP` (plugin.go lines 97 to 120):
run the downstream handler through the recorder, serialize the recorded
response, store it with the configured TTL, then write the recorded status
and the buffered body to the original writer a second time. -/
def missPath (encode : CachedResponse → String) (cacheExpiry : Int)
    (next : List HAction) (cacheKey : String) : List WEvent × List Effect :=
  let r := runRecorder next
  let cr : CachedResponse := { statusCode := r.1.status, headers := r.1.hdrs, body := r.1.body }
  (r.2 ++ [.writeHeader r.1.status, .write r.1.body],
   [.setWithTTL cacheKey (encode cr) cacheExpiry])

/-- `Cache.ServeHTTP` (plugin.go lines 71 to 120). The cache key is the
request path. `Get` yields the stored blob, or the empty string for an
absent key (a nil reply decodes to "" — see `bulkBranch`); the store
lookup is modelled as error-free. A non-empty blob that gob-decodes is
served from cache; a non-empty blob that fails to decode is deleted and
the miss path runs; an empty blob goes straight to the miss path.
gob encode/decode are abstract parameters. -/
def Cache.ServeHTTP (decode : String → Option CachedResponse)
    (encode : CachedResponse → String) (store : String → Option String)
    (cacheExpiry : Int) (next : List HAction) (path : String) :
    List WEvent × List Effect :=
  let cacheKey := path
  let cachedData := (store cacheKey).getD ""
  if cachedData ≠ "" then
    match decode cachedData with
    | some cr =>
      (cr.headers.map (fun p => WEvent.addHeader p.1 p.2)
         ++ [.writeHeader cr.statusCode, .write cr.body], [])
    | none =>
      let m := missPath encode cacheExpiry next cacheKey
      (m.1, .deleteKey cacheKey :: m.2)
  else missPath encode cacheExpiry next cacheKey

example :
    Cache.ServeHTTP (fun _ => none) (fun _ => "enc") (fun _ => none) 15
      [.writeHeader 200, .write "hello"] "/p"
    = ([.writeHeader 200, .write "hello", .writeHeader 200, .write "hello"],
       [.setWithTTL "/p" "enc" 15]) := by decide

example :
    Cache.ServeHTTP (fun _ => none) (fun _ => "enc") (fun _ => some "blob") 15
      [.writeHeader 200, .write "hello"] "/p"
    = ([.writeHeader 200, .write "hello", .writeHeader 200, .write "hello"],
       [.deleteKey "/p", .setWithTTL "/p" "enc" 15]) := by decide

example :
    Cache.ServeHTTP (fun _ => some ⟨201, [("A", "b")], "payload"⟩) (fun _ => "enc")
      (fun _ => some "blob") 15 [.writeHeader 200, .write "hello"] "/p"
    = ([.addHeader "A" "b", .writeHeader 201, .write "payload"], []) := by decide

example :
    Cache.ServeHTTP (fun _ => none) (fun _ => "enc") (fun _ => some "") 15 [] "/k"
    = ([.writeHeader 0, .write ""], [.setWithTTL "/k" "enc" 15]) := by decide

/-! ## Claim theorems: reply codec -/

/-- Claim C1 counterexample: a nil reply (`$-1\r\n`, never-set key) and an
empty stored value (`$0\r\n\r\n`) produce the very same result of
`Connection.Receive` — the empty string with no error — so a get on a
never-set key is NOT distinguishable from a get of a stored empty string. -/
theorem Receive_nil_equals_empty_bulk :
    receiveReply ⟨"", ["$-1\r\n"]⟩ = receiveReply ⟨"", ["$0\r\n\r\n"]⟩ := by decide

/-- Claim C1 (amended): a get on a never-set key (nil reply) returns the
empty string without error, and so does a get of a stored empty-string
value; absence collapses onto the empty string. -/
theorem Receive_nil_and_empty_bulk_decode_to_empty :
    receiveReply ⟨"", ["$-1\r\n"]⟩ = .ok "" ⟨"", []⟩
  ∧ receiveReply ⟨"", ["$0\r\n\r\n"]⟩ = .ok "" ⟨"", []⟩ := by decide

/-- Claim C2 (code bug): when the stream delivers the bulk reply
`$5\r\nabcde\r\n` split as "$5\r\nab" then "cde\r\n", the single
`rw.Read(buf)` of `Connection.Receive` returns after the two buffered
payload bytes, so the reply is "ab" padded with three zero bytes and the
remaining bytes "cde\r\n" are left unconsumed — the declared five payload
bytes plus CRLF are consumed only when they are already delivered in one
piece, as in the second conjunct. -/
theorem Receive_short_read_consumes_too_little :
    receiveReply ⟨"", ["$5\r\nab", "cde\r\n"]⟩
      = .ok ("ab" ++ String.mk (List.replicate 3 (Char.ofNat 0))) ⟨"", ["cde\r\n"]⟩
  ∧ receiveReply ⟨"", ["$5\r\nabcde\r\n"]⟩ = .ok "abcde" ⟨"", []⟩ := by decide

/-- Claim C3 counterexample: the reply `:abc\r\n` carries a non-numeric
integer payload, yet `Connection.Receive` returns it as the successful
reply ":abc" — the claim that a non-numeric `:` payload is a protocol
error is false (the `:` line falls into the default branch untouched). -/
theorem Receive_nonnumeric_integer_payload_not_error :
    receiveReply ⟨"", [":abc\r\n"]⟩ = .ok ":abc" ⟨"", []⟩ := by decide

/-- Claim C3 (amended): literal decode results of `Connection.Receive`:
`+OK\r\n` gives "OK", `:5\r\n` gives the raw line ":5" (no integer parsing
happens in the codec; the client layer matches ":1"/":0" itself),
`$3\r\nabc\r\n` gives "abc", `$-1\r\n` gives the empty string, and
`-ERR bad\r\n` is surfaced as the error "ERR bad". -/
theorem Receive_literal_reply_decoding :
    receiveReply ⟨"", ["+OK\r\n"]⟩ = .ok "OK" ⟨"", []⟩
  ∧ receiveReply ⟨"", [":5\r\n"]⟩ = .ok ":5" ⟨"", []⟩
  ∧ receiveReply ⟨"", ["$3\r\nabc\r\n"]⟩ = .ok "abc" ⟨"", []⟩
  ∧ receiveReply ⟨"", ["$-1\r\n"]⟩ = .ok "" ⟨"", []⟩
  ∧ receiveReply ⟨"", ["-ERR bad\r\n"]⟩ = .errMsg "ERR bad" ⟨"", []⟩ := by decide

/-- Claim C9: the bulk branch is not total on declared lengths below -1:
every such length makes the Go code panic (a negative `make` size for
lengths below -2, an out-of-range `buf[:length]` slice at exactly -2)
instead of returning a protocol error; only -1 is handled as nil.
A non-numeric declared length such as `$abc\r\n` is silently treated as
length 0 because the `strconv.Atoi` error is discarded, consuming two
stream bytes and returning the empty string. -/
theorem Receive_negative_bulk_length_panics :
    (∀ (length : Int) (st : BufState), length < -1 → ∃ m, bulkBranch length st = .panicked m)
  ∧ receiveReply ⟨"", ["$-3\r\n"]⟩ = .panicked "makeslice: len out of range"
  ∧ receiveReply ⟨"", ["$-2\r\n"]⟩ = .panicked "slice bounds out of range"
  ∧ atoiGo "abc" = 0
  ∧ receiveReply ⟨"", ["$abc\r\nXY"]⟩ = .ok "" ⟨"", []⟩ := by
  refine ⟨?_, by decide, by decide, by decide, by decide⟩
  intro length st hlen
  by_cases h2 : length + 2 < 0
  · refine ⟨"makeslice: len out of range", ?_⟩
    unfold bulkBranch
    rw [if_neg (by omega : ¬length = -1)]
    unfold goMake
    rw [if_pos h2]
  · have h0 : length = -2 := by omega
    subst h0
    exact ⟨"slice bounds out of range", by simp [bulkBranch, goMake, bufRead, goSliceTake]⟩

/-- Claim C9 witness: the general panic statement applied at length -2. -/
theorem Receive_negative_bulk_length_panics_witness :
    (-2 : Int) < -1 ∧ ∃ m, bulkBranch (-2) ⟨"", []⟩ = .panicked m :=
  ⟨by decide, Receive_negative_bulk_length_panics.1 (-2) ⟨"", []⟩ (by decide)⟩

/-! ## Claim theorems: pool and client construction -/

lemma poolStep_cap (p : Pool) (op : PoolOp) : (poolStep p op).cap = p.cap := by
  cases op with
  | acquire d =>
    cases h : p.idle <;> simp [poolStep, Client.GetConnection, h]
  | release c =>
    simp only [poolStep, Client.ReleaseConnection]
    split <;> simp

lemma poolStep_idle_le (p : Pool) (op : PoolOp) (h : p.idle.length ≤ p.cap) :
    (poolStep p op).idle.length ≤ p.cap := by
  cases op with
  | acquire d =>
    cases hi : p.idle with
    | nil =>
      have hstep : poolStep p (PoolOp.acquire d) = p := by
        simp [poolStep, Client.GetConnection, hi]
      rw [hstep]
      exact h
    | cons c rest =>
      have := h
      rw [hi] at this
      simp only [poolStep, Client.GetConnection, hi]
      simp at this ⊢
      omega
  | release c =>
    simp only [poolStep, Client.ReleaseConnection]
    split
    · exact h
    · next hlt =>
      simp only [List.length_append, List.length_cons, List.length_nil]
      omega

lemma poolRun_cap (p : Pool) (ops : List PoolOp) : (poolRun p ops).cap = p.cap := by
  induction ops generalizing p with
  | nil => rfl
  | cons op rest ih =>
    show (poolRun (poolStep p op) rest).cap = p.cap
    rw [ih, poolStep_cap]

lemma poolRun_idle_le (p : Pool) (ops : List PoolOp) (h : p.idle.length ≤ p.cap) :
    (poolRun p ops).idle.length ≤ p.cap := by
  induction ops generalizing p with
  | nil => exact h
  | cons op rest ih =>
    show (poolRun (poolStep p op) rest).idle.length ≤ p.cap
    rw [← poolStep_cap p op]
    exact ih _ (by rw [poolStep_cap]; exact poolStep_idle_le p op h)

/-- Claim C4: starting from any state whose idle set is within capacity
(as any constructed client is), every interleaving of acquire and release
operations keeps the number of idle connections at most the capacity and
leaves the capacity unchanged; moreover a release against a full pool
closes and discards the connection leaving the pool untouched, while a
release against a non-full pool appends the connection to the idle set. -/
theorem pool_idle_never_exceeds_capacity (p0 : Pool) (ops : List PoolOp)
    (h : p0.idle.length ≤ p0.cap) :
    (poolRun p0 ops).idle.length ≤ p0.cap
  ∧ (poolRun p0 ops).cap = p0.cap
  ∧ (∀ p c, p.cap ≤ p.idle.length → Client.ReleaseConnection p c = (p, true))
  ∧ (∀ p c, p.idle.length < p.cap →
      Client.ReleaseConnection p c = ({ p with idle := p.idle ++ [c] }, false)) := by
  refine ⟨poolRun_idle_le p0 ops h, poolRun_cap p0 ops, ?_, ?_⟩
  · intro p c hful
    simp [Client.ReleaseConnection, hful]
  · intro p c hlt
    simp [Client.ReleaseConnection, Nat.not_le.mpr hlt]

/-- Claim C4 witness: a concrete interleaving on a pool of capacity 2 with
two idle connections — an overflow release is discarded and the idle count
stays at the capacity bound. -/
theorem pool_idle_never_exceeds_capacity_witness :
    (⟨[1, 2], 2⟩ : Pool).idle.length ≤ (⟨[1, 2], 2⟩ : Pool).cap
  ∧ (poolRun ⟨[1, 2], 2⟩
      [.release 3, .acquire (some 9), .release 4, .release 5]).idle.length
      ≤ (⟨[1, 2], 2⟩ : Pool).cap :=
  ⟨by decide,
   (pool_idle_never_exceeds_capacity ⟨[1, 2], 2⟩
      [.release 3, .acquire (some 9), .release 4, .release 5] (by decide)).1⟩

/-- Claim C7: `NewRedisClient` dials exactly `poolSize` connections up
front (attempt i has outcome `dial i`); construction fails exactly when
every dial fails, and any partial success yields a client whose pool holds
just the successful connections — at most `poolSize` of them — with no
error surfaced. -/
theorem NewRedisClient_error_iff_all_dials_fail (poolSize : Nat) (dial : Nat → Option Nat) :
    ((∃ e, NewRedisClient poolSize dial = .error e) ↔ ∀ i < poolSize, dial i = none)
  ∧ (∀ pool, NewRedisClient poolSize dial = .ok pool →
      pool.idle = (List.range poolSize).filterMap dial
      ∧ pool.idle.length ≤ poolSize ∧ pool.cap = poolSize) := by
  constructor
  · constructor
    · intro ⟨e, he⟩ i hi
      unfold NewRedisClient at he
      split at he
      · next hemp =>
        have : (List.range poolSize).filterMap dial = [] := by
          simpa [List.isEmpty_iff] using hemp
        exact List.filterMap_eq_nil_iff.mp this i (List.mem_range.mpr hi)
      · exact absurd he (by simp)
    · intro hall
      refine ⟨"cannot create redis connection", ?_⟩
      unfold NewRedisClient
      have : (List.range poolSize).filterMap dial = [] :=
        List.filterMap_eq_nil_iff.mpr (fun i hi => hall i (List.mem_range.mp hi))
      simp [this]
  · intro pool hok
    unfold NewRedisClient at hok
    split at hok
    · exact absurd hok (by simp)
    · have := (Except.ok.injEq _ _).mp hok.symm
      subst this
      refine ⟨rfl, ?_, rfl⟩
      calc ((List.range poolSize).filterMap dial).length
          ≤ (List.range poolSize).length := List.length_filterMap_le _ _
        _ = poolSize := List.length_range poolSize

/-- Claim C7 witness: two dial attempts with only the first succeeding
yield a constructed client with a one-connection pool. -/
theorem NewRedisClient_error_iff_all_dials_fail_witness :
    NewRedisClient 2 (fun i => if i = 0 then some 7 else none) = .ok ⟨[7], 2⟩
  ∧ (⟨[7], 2⟩ : Pool).idle.length ≤ 2 :=
  ⟨by rfl,
   ((NewRedisClient_error_iff_all_dials_fail 2
      (fun i => if i = 0 then some 7 else none)).2 ⟨[7], 2⟩ (by rfl)).2.1⟩

/-! ## Claim theorems: context handling and AUTH wire format -/

/-- Claim C6: whenever the supplied context is already cancelled or its
deadline has already elapsed at entry (so `ctx.Err()` is non-nil), both
`Connection.Send` and `Connection.Receive` return that cancellation error
and leave the socket completely untouched: nothing is written, nothing is
read, and not even the read/write deadlines are installed. -/
theorem Send_Receive_expired_context_no_io (ctx : GoContext) (now : Int)
    (s : Sock) (command : String) (e : String) (h : ctxErr ctx now = some e) :
    Connection.Send ctx now s command = (some e, s)
  ∧ Connection.Receive ctx now s = (.err e, s) := by
  constructor
  · simp [Connection.Send, h]
  · simp [Connection.Receive, h]

/-- Claim C6 witness: a context whose deadline 0 lies before the current
time 1 makes `Connection.Send` fail fast with the socket unchanged. -/
theorem Send_Receive_expired_context_no_io_witness :
    ctxErr ⟨false, some 0⟩ 1 = some "context deadline exceeded"
  ∧ Connection.Send ⟨false, some 0⟩ 1 ⟨"", ⟨"", []⟩, none, none⟩ "PING"
      = (some "context deadline exceeded", ⟨"", ⟨"", []⟩, none, none⟩) :=
  ⟨by decide,
   (Send_Receive_expired_context_no_io ⟨false, some 0⟩ 1 ⟨"", ⟨"", []⟩, none, none⟩
      "PING" "context deadline exceeded" (by decide)).1⟩

/-- Claim C8 counterexample: with the credential "secret", the AUTH bytes
`NewRedisConnection` puts on the wire are the bare line "AUTH secret\r\n",
not the protocol-array frame the spec prescribes. -/
theorem Auth_wire_bytes_not_protocol_array :
    newRedisConnectionWrites "secret" = "AUTH secret\r\n"
  ∧ authArraySpec "secret" = "*2\r\n$4\r\nAUTH\r\n$6\r\nsecret\r\n"
  ∧ newRedisConnectionWrites "secret" ≠ authArraySpec "secret" := by decide

/-- Claim C8 (amended): for every non-empty credential, the AUTH command
issued once at connection construction goes on the wire as the bare
space-separated line `AUTH <password>` followed by CRLF — like PING, and
unlike the array-framed data commands. -/
theorem Auth_sent_as_bare_line (password : String) (h : password ≠ "") :
    newRedisConnectionWrites password = ("AUTH " ++ password) ++ "\r\n" := by
  simp [newRedisConnectionWrites, h, sendWireBytes, authCommand]

/-- Claim C8 witness: the bare-line AUTH bytes at the credential "secret". -/
theorem Auth_sent_as_bare_line_witness :
    ("secret" : String) ≠ ""
  ∧ newRedisConnectionWrites "secret" = ("AUTH " ++ "secret") ++ "\r\n" :=
  ⟨by decide, Auth_sent_as_bare_line "secret" (by decide)⟩


/-! ## Claim theorems: cache layer -/

/-- The event a recorder pass-through forwards to the underlying writer. -/
def toWEvent : HAction → WEvent
  | .addHeader k v => .addHeader k v
  | .writeHeader s => .writeHeader s
  | .write b => .write b

/-- Concatenation of the body chunks a downstream handler writes. -/
def concatWrites : List HAction → String
  | [] => ""
  | HAction.write b :: rest => b ++ concatWrites rest
  | HAction.addHeader _ _ :: rest => concatWrites rest
  | HAction.writeHeader _ :: rest => concatWrites rest

lemma string_append_assoc (a b c : String) : (a ++ b) ++ c = a ++ (b ++ c) := by
  cases a with | mk la =>
  cases b with | mk lb =>
  cases c with | mk lc =>
  show String.mk ((la ++ lb) ++ lc) = String.mk (la ++ (lb ++ lc))
  rw [List.append_assoc]

lemma recorder_foldl_spec (next : List HAction) (st : RecorderState) (tr : List WEvent) :
    (next.foldl recorderStep (st, tr)).2 = tr ++ next.map toWEvent
  ∧ (next.foldl recorderStep (st, tr)).1.body = st.body ++ concatWrites next := by
  induction next generalizing st tr with
  | nil => simp [concatWrites]
  | cons a rest ih =>
    cases a with
    | addHeader k v =>
      have h := ih { st with hdrs := st.hdrs ++ [(k, v)] } (tr ++ [WEvent.addHeader k v])
      constructor
      · simpa [recorderStep, toWEvent, List.foldl_cons] using h.1
      · simpa [recorderStep, concatWrites, List.foldl_cons] using h.2
    | writeHeader s =>
      have h := ih { st with status := s } (tr ++ [WEvent.writeHeader s])
      constructor
      · simpa [recorderStep, toWEvent, List.foldl_cons] using h.1
      · simpa [recorderStep, concatWrites, List.foldl_cons] using h.2
    | write b =>
      have h := ih { st with body := st.body ++ b } (tr ++ [WEvent.write b])
      constructor
      · simpa [recorderStep, toWEvent, List.foldl_cons] using h.1
      · have h2 : ((HAction.write b :: rest).foldl recorderStep (st, tr)).1.body
            = (st.body ++ b) ++ concatWrites rest := by
          simpa [recorderStep, List.foldl_cons] using h.2
        rw [h2, string_append_assoc]
        simp [concatWrites]

/-- The recorder trace: every downstream call is passed through to the
underlying ResponseWriter, and the buffered body is the concatenation of
the written chunks. -/
lemma runRecorder_spec (next : List HAction) :
    (runRecorder next).2 = next.map toWEvent
  ∧ (runRecorder next).1.body = concatWrites next := by
  have h := recorder_foldl_spec next recorderInit []
  constructor
  · simpa using h.1
  · simpa [recorderInit] using h.2

/-- Claim C10: on every cache-miss request (absent key, so `Get` yields
the empty string), the downstream response reaches the client twice: the
recorder passes every downstream WriteHeader/Write call through to the
underlying ResponseWriter while `next.ServeHTTP` runs, and `ServeHTTP`
then calls WriteHeader with the recorded status and writes the whole
buffered body to the same writer a second time. -/
theorem ServeHTTP_miss_writes_body_twice (decode : String → Option CachedResponse)
    (encode : CachedResponse → String) (store : String → Option String)
    (expiry : Int) (next : List HAction) (path : String) (h : store path = none) :
    (Cache.ServeHTTP decode encode store expiry next path).1
      = next.map toWEvent
        ++ [.writeHeader (runRecorder next).1.status, .write (runRecorder next).1.body]
  ∧ (runRecorder next).1.body = concatWrites next := by
  constructor
  · simp only [Cache.ServeHTTP, missPath, h, Option.getD_none, ne_eq,
      not_true_eq_false, if_false, reduceIte]
    rw [(runRecorder_spec next).1]
  · exact (runRecorder_spec next).2

/-- Claim C10 witness: a handler that sets status 200 and writes "hello"
results in the client-facing writer seeing the status and the body twice. -/
theorem ServeHTTP_miss_writes_body_twice_witness :
    ((fun _ : String => (none : Option String)) "/p") = none
  ∧ (Cache.ServeHTTP (fun _ => none) (fun _ => "enc") (fun _ => none) 15
      [.writeHeader 200, .write "hello"] "/p").1
      = [.writeHeader 200, .write "hello", .writeHeader 200, .write "hello"] := by
  refine ⟨rfl, ?_⟩
  rw [(ServeHTTP_miss_writes_body_twice (fun _ => none) (fun _ => "enc") (fun _ => none)
      15 [.writeHeader 200, .write "hello"] "/p" rfl).1]
  decide

/-- Claim C5 (amended): for every request whose cached blob is present and
non-empty but fails to decode, `ServeHTTP` issues a delete of that cache
key as its first Redis write effect and then behaves exactly as a cache
miss: the client-facing events and the remaining effects are literally
those of the same request against an absent key (and the model is a total
function — the corrupt entry never escalates into a crash). -/
theorem ServeHTTP_corrupt_entry_deletes_and_misses
    (decode : String → Option CachedResponse) (encode : CachedResponse → String)
    (store : String → Option String) (expiry : Int) (next : List HAction)
    (path blob : String) (hp : store path = some blob) (hne : blob ≠ "")
    (hdec : decode blob = none) :
    Cache.ServeHTTP decode encode store expiry next path
      = ((Cache.ServeHTTP decode encode (fun _ => none) expiry next path).1,
         .deleteKey path :: (Cache.ServeHTTP decode encode (fun _ => none) expiry next path).2) := by
  simp [Cache.ServeHTTP, hp, hne, hdec]

/-- Claim C5 witness: a present one-byte blob that fails to decode is
deleted and the request is served as a miss. -/
theorem ServeHTTP_corrupt_entry_deletes_and_misses_witness :
    ((fun _ : String => some "x") "/p") = some "x"
  ∧ ("x" : String) ≠ ""
  ∧ ((fun _ : String => (none : Option CachedResponse)) "x") = none
  ∧ Cache.ServeHTTP (fun _ => none) (fun _ => "enc") (fun _ => some "x") 15 [] "/p"
      = ((Cache.ServeHTTP (fun _ => none) (fun _ => "enc") (fun _ => none) 15 [] "/p").1,
         .deleteKey "/p" :: (Cache.ServeHTTP (fun _ => none) (fun _ => "enc")
            (fun _ => none) 15 [] "/p").2) :=
  ⟨rfl, by decide, rfl,
   ServeHTTP_corrupt_entry_deletes_and_misses (fun _ => none) (fun _ => "enc")
     (fun _ => some "x") 15 [] "/p" "x" rfl (by decide) rfl⟩

/-- Claim C5 counterexample: a stored empty-string blob is present and
fails to decode, yet the read path issues no delete for it — the hit
check `cachedData != ""` classifies it as a miss before any decode is
attempted, so the claim as stated fails at this input. -/
theorem ServeHTTP_present_empty_blob_not_deleted :
    ((fun _ : String => some "") "/k") = some ""
  ∧ ((fun _ : String => (none : Option CachedResponse)) "") = none
  ∧ Effect.deleteKey "/k"
      ∉ (Cache.ServeHTTP (fun _ => none) (fun _ => "enc") (fun _ => some "") 15 [] "/k").2 := by
  refine ⟨rfl, rfl, ?_⟩
  decide
